import Mathlib

/-
Shallow embedding of the listing aggregation engine of ribbybibby/s3_exporter
(src/s3_exporter.go), together with the spec-described parts of the engine
that are absent from that file (delimiter-mode output shaping, the
common-prefix tally, and the version-aware lister), which are marked
"Modelled from the spec".

Modelling conventions:
- Go pointers to strings/times/ints become `Option`/plain values; a nil
  dereference is modelled by an `Option.none` result of the embedding
  ("panic").
- `time.Time` instants are unbounded integers on the Unix-nanosecond
  timeline; the zero `time.Time` is `goZeroTime`. `time.Time.After` is
  strict `<` on that timeline.
- Go `int64` values are modelled as unbounded `Int`; the one place where
  int64 overflow is observable in the source (`UnixNano` of the zero time in
  the date metric) is modelled explicitly with `wrap64`.
- The float64 object counter is incremented only by 1, so it is modelled as
  a `Nat`.
- Wall-clock durations are not modelled; the duration metric value is an
  opaque parameter.
- The S3 client is modelled as the per-call sequence of responses it would
  return for a given request prefix.
-/

namespace S3E

/-- One S3 object record as consumed by `Collect` (src/s3_exporter.go):
key, last-modified timestamp (Unix nanoseconds), size in bytes and the
optional storage class (a nil-able pointer in the source, hence `Option`). -/
structure S3Object where
  key : String
  lastModified : Int
  size : Int
  storageClass : Option String
  deriving DecidableEq

/-- The zero value of Go `time.Time` (January 1, year 1 UTC) placed on the
Unix-nanosecond timeline: -62135596800 seconds times 10^9. -/
def goZeroTime : Int := -62135596800000000000

/-- The per-probe accumulator of `Collect` (src/s3_exporter.go lines 87-92).
The first five fields are the local variables of the prefix loop; the
`commonPrefixCount` field is the spec's common-prefix tally (§3), which is
absent from src/s3_exporter.go and never read by its emissions. -/
@[ext]
structure Aggregate where
  numberOfObjects : Nat
  totalSize : Int
  biggestObjectSize : Int
  lastModified : Int
  lastObjectSize : Int
  commonPrefixCount : Nat
  deriving DecidableEq

/-- The zero values the accumulator variables start from at the top of the
prefix loop (src/s3_exporter.go lines 88-92). -/
def Aggregate.empty : Aggregate :=
  { numberOfObjects := 0
    totalSize := 0
    biggestObjectSize := 0
    lastModified := goZeroTime
    lastObjectSize := 0
    commonPrefixCount := 0 }

/-- The body of the item loop for one counted item
(src/s3_exporter.go lines 131-139): increment the counter, add the size,
replace the last-modified pair when the item is strictly later, and raise
the biggest size when strictly exceeded. -/
def countItem (acc : Aggregate) (item : S3Object) : Aggregate :=
  let acc1 := { acc with
    numberOfObjects := acc.numberOfObjects + 1
    totalSize := acc.totalSize + item.size }
  let acc2 :=
    if acc.lastModified < item.lastModified then
      { acc1 with lastModified := item.lastModified, lastObjectSize := item.size }
    else acc1
  if acc2.biggestObjectSize < item.size then
    { acc2 with biggestObjectSize := item.size }
  else acc2

/-- One iteration of the item loop (src/s3_exporter.go lines 120-140):
when a storage-class filter is set the item's storage-class pointer is
dereferenced unconditionally (`none` models the nil-pointer panic); a
non-matching item is skipped, any other item is counted. -/
def processItem (sc : String) (acc : Aggregate) (item : S3Object) : Option Aggregate :=
  if sc ≠ "" then
    match item.storageClass with
    | none => none
    | some c => if c ≠ sc then some acc else some (countItem acc item)
  else some (countItem acc item)

/-- The item loop over one page's `Contents` (src/s3_exporter.go line 120). -/
def processItems (sc : String) (acc : Aggregate) : List S3Object → Option Aggregate
  | [] => some acc
  | item :: rest =>
    match processItem sc acc item with
    | none => none
    | some acc2 => processItems sc acc2 rest

/-- The unconditional counting fold (the item loop with no filter in the
way), used to state what `processItems` computes on the counted items. -/
def countItems (acc : Aggregate) (l : List S3Object) : Aggregate :=
  l.foldl countItem acc

/-- One `ListObjectsV2` response page: the object records, the common
prefixes and the continuation token (present iff more pages remain). -/
structure Page where
  contents : List S3Object
  commonPrefixes : List String
  nextContinuationToken : Option String
  deriving DecidableEq

/-- Modelled from the spec: the common-prefix tally of the Aggregate
("Unconditionally add `len(page.CommonPrefixes)` to `commonPrefixCount`",
§4.1).  This accumulation is missing from src/s3_exporter.go; it is
evidenced by the `s3_common_prefixes` test case in src/s3_exporter_test.go. -/
def tallyCommonPrefixes (acc : Aggregate) (p : Page) : Aggregate :=
  { acc with commonPrefixCount := acc.commonPrefixCount + p.commonPrefixes.length }

/-- Fold one page into the accumulator: the item loop from
src/s3_exporter.go lines 120-140 followed by the spec's common-prefix tally
(see `tallyCommonPrefixes`). -/
def foldPage (sc : String) (acc : Aggregate) (p : Page) : Option Aggregate :=
  (processItems sc acc p.contents).map (fun a => tallyCommonPrefixes a p)

/-- Fold a sequence of pages in order (the successive iterations of the
pagination loop, src/s3_exporter.go lines 111-145, with the continuation
bookkeeping abstracted away). -/
def foldPages (sc : String) (acc : Aggregate) : List Page → Option Aggregate
  | [] => some acc
  | p :: ps =>
    match foldPage sc acc p with
    | none => none
    | some a => foldPages sc a ps

/-- One result of a `ListObjectsV2` call: a page, or a transport/API error. -/
inductive ListResult where
  | ok : Page → ListResult
  | err : ListResult
  deriving DecidableEq

/-- Outcome of the pagination loop for one prefix, together with the number
of list calls that were issued. -/
inductive PrefixResult where
  | listError : Nat → PrefixResult
  | ok : Aggregate → Nat → PrefixResult
  deriving DecidableEq

/-- The number of list calls a pagination run issued. -/
def PrefixResult.calls : PrefixResult → Nat
  | PrefixResult.listError n => n
  | PrefixResult.ok _ n => n

/-- The pagination loop for one prefix (src/s3_exporter.go lines 111-145):
each iteration consumes the next response of the client; an error ends the
loop as `listError`; otherwise the page is folded and the loop continues
exactly when the page carries a continuation token.  The input list is the
sequence of responses the client returns for the successive calls;
`Option.none` means the model is out of its domain (a further call with no
specified response, or the nil-storage-class panic inside the item loop). -/
def listLoop (sc : String) (acc : Aggregate) : List ListResult → Option PrefixResult
  | [] => none
  | ListResult.err :: _ => some (PrefixResult.listError 1)
  | ListResult.ok p :: rest =>
    match foldPage sc acc p with
    | none => none
    | some a =>
      match p.nextContinuationToken with
      | none => some (PrefixResult.ok a 1)
      | some _ =>
        match listLoop sc a rest with
        | none => none
        | some (PrefixResult.listError n) => some (PrefixResult.listError (n + 1))
        | some (PrefixResult.ok agg n) => some (PrefixResult.ok agg (n + 1))

/-- The pages a pagination run consumes from a response sequence: stop at an
error, and stop after the first page with no continuation token. -/
def consumedPages : List ListResult → List Page
  | [] => []
  | ListResult.err :: _ => []
  | ListResult.ok p :: rest =>
    match p.nextContinuationToken with
    | none => [p]
    | some _ => p :: consumedPages rest

/-- The metric descriptors registered by src/s3_exporter.go lines 26-62,
plus the spec's common-prefix count metric (§4.3, absent from that file). -/
inductive MetricName where
  | listSuccess
  | listDuration
  | lastModifiedObjectDate
  | lastModifiedObjectSize
  | objectTotal
  | biggestSize
  | sumSize
  | commonPrefixTotal
  deriving DecidableEq

/-- The variable labels of each descriptor.  In src/s3_exporter.go every
descriptor declares exactly the three labels bucket, prefix, storage_class
(lines 26-62).  The common-prefix descriptor is Modelled from the spec
(§4.3: labeled by bucket, prefix and delimiter). -/
def descVariableLabels : MetricName → List String
  | MetricName.commonPrefixTotal => [("bucket"), ("prefix"), ("delimiter")]
  | _ => [("bucket"), ("prefix"), ("storage_class")]

/-- One constant metric sample sent to the collector channel. -/
structure Sample where
  name : MetricName
  value : Int
  labelValues : List String
  deriving DecidableEq

/-- The behaviour of `prometheus.MustNewConstMetric`: constructing a constant metric checks
that the number of label values matches the descriptor's variable labels and
panics (`none`) on a mismatch. -/
def mustNewConstMetric (name : MetricName) (value : Int) (lvs : List String) : Option Sample :=
  if lvs.length = (descVariableLabels name).length then some ⟨name, value, lvs⟩ else none

/-- Two's-complement wrap-around of an unbounded integer into int64, for the
one observable int64 overflow in the source (`UnixNano` of the zero time). -/
def wrap64 (x : Int) : Int := (x + 2 ^ 63) % 2 ^ 64 - 2 ^ 63

/-- The value of the last-modified date metric
(src/s3_exporter.go line 155): `lastModified.UnixNano() / 1e9` in int64
arithmetic, i.e. truncating division of the wrapped nanosecond timestamp. -/
def lastModifiedDateValue (t : Int) : Int := Int.tdiv (wrap64 t) 1000000000

/-- The storage-class label value (src/s3_exporter.go lines 98-102): the
configured class, or a star when no filter is configured. -/
def scLabel (sc : String) : String := if sc ≠ "" then sc else ("*")

/-- The seven metrics emitted after a successful pagination run for one
prefix, in source order (src/s3_exporter.go lines 148-168), each built by
`mustNewConstMetric`. -/
def familyEmissions (labels : List String) (agg : Aggregate) (dur : Int) :
    List (Option Sample) :=
  [ mustNewConstMetric MetricName.listSuccess 1 labels,
    mustNewConstMetric MetricName.listDuration dur labels,
    mustNewConstMetric MetricName.lastModifiedObjectDate
      (lastModifiedDateValue agg.lastModified) labels,
    mustNewConstMetric MetricName.lastModifiedObjectSize agg.lastObjectSize labels,
    mustNewConstMetric MetricName.objectTotal (agg.numberOfObjects : Int) labels,
    mustNewConstMetric MetricName.biggestSize agg.biggestObjectSize labels,
    mustNewConstMetric MetricName.sumSize agg.totalSize labels ]

/-- The seven family samples as they land on the channel after a successful
run (the values of `familyEmissions`; the construction succeeds whenever
three label values are passed). -/
def familySamples (labels : List String) (agg : Aggregate) (dur : Int) : List Sample :=
  [ ⟨MetricName.listSuccess, 1, labels⟩,
    ⟨MetricName.listDuration, dur, labels⟩,
    ⟨MetricName.lastModifiedObjectDate, lastModifiedDateValue agg.lastModified, labels⟩,
    ⟨MetricName.lastModifiedObjectSize, agg.lastObjectSize, labels⟩,
    ⟨MetricName.objectTotal, (agg.numberOfObjects : Int), labels⟩,
    ⟨MetricName.biggestSize, agg.biggestObjectSize, labels⟩,
    ⟨MetricName.sumSize, agg.totalSize, labels⟩ ]

/-- Send a sequence of constructed metrics to the channel one by one; a
construction panic (`none`) aborts mid-sequence, keeping what was already
sent.  The boolean records whether all sends completed. -/
def sendSeq (sent : List Sample) : List (Option Sample) → List Sample × Bool
  | [] => (sent, true)
  | none :: _ => (sent, false)
  | some m :: rest => sendSeq (sent ++ [m]) rest

/-- The observable outcome of one `Collect` call: the samples sent to the
channel, and whether `Collect` completed normally or aborted in a panic. -/
inductive CollectOutcome where
  | completed : List Sample → CollectOutcome
  | panicked : List Sample → CollectOutcome
  deriving DecidableEq

/-- Whether `Collect` ran to a normal return. -/
def CollectOutcome.isCompleted : CollectOutcome → Bool
  | CollectOutcome.completed _ => true
  | CollectOutcome.panicked _ => false

/-- The samples that reached the channel. -/
def CollectOutcome.sent : CollectOutcome → List Sample
  | CollectOutcome.completed l => l
  | CollectOutcome.panicked l => l

/-- The prefix loop of `Collect` (src/s3_exporter.go lines 87-169): each
prefix starts from the zero accumulator; a listing error emits
`s3_list_success 0` with only the two label values bucket and prefix (line
116) and returns; a successful run emits the seven family metrics with the
three-element label list and moves to the next prefix. -/
def collectLoop (bucket sc : String) (svc : String → List ListResult)
    (dur : String → Int) (sent : List Sample) : List String → CollectOutcome
  | [] => CollectOutcome.completed sent
  | pfx :: rest =>
    match listLoop sc Aggregate.empty (svc pfx) with
    | none => CollectOutcome.panicked sent
    | some (PrefixResult.listError _) =>
      match sendSeq sent [mustNewConstMetric MetricName.listSuccess 0 [bucket, pfx]] with
      | (s, true) => CollectOutcome.completed s
      | (s, false) => CollectOutcome.panicked s
    | some (PrefixResult.ok agg _) =>
      match sendSeq sent (familyEmissions [bucket, pfx, scLabel sc] agg (dur pfx)) with
      | (s, true) => collectLoop bucket sc svc dur s rest
      | (s, false) => CollectOutcome.panicked s

/-- The exporter state (src/s3_exporter.go lines 65-70); the client is the
per-prefix sequence of responses it returns to the successive list calls. -/
structure Exporter where
  bucket : String
  prefixes : List String
  svc : String → List ListResult
  storageClass : String

/-- The method `Collect` (src/s3_exporter.go lines 84-170). -/
def Exporter.collect (e : Exporter) (dur : String → Int) : CollectOutcome :=
  collectLoop e.bucket e.storageClass e.svc dur [] e.prefixes

/-- The outcome of `probeHandler`'s input handling: an HTTP 400, or the
exporter parameters it proceeds to collect with. -/
inductive HandlerResult where
  | badRequest : String → HandlerResult
  | serve : String → List String → String → HandlerResult
  deriving DecidableEq

/-- Whether the handler rejected the request with a client error. -/
def HandlerResult.isBadRequest : HandlerResult → Bool
  | HandlerResult.badRequest _ => true
  | HandlerResult.serve _ _ _ => false

/-- The separator used by the handler's `strings.Split` calls. -/
def commaSep : String := ","

/-- The parameter handling of `probeHandler` (src/s3_exporter.go lines
172-221): the request is rejected only when both the query's bucket and the
statically configured bucket are empty; otherwise the query values win over
the configured ones and an exporter is built.  A missing query parameter
reads as the empty string, as with Go's `URL.Query().Get`. -/
def probeHandler (qBucket qPfxs qPfx qSc cfgBucket cfgPfxs cfgSc : String) :
    HandlerResult :=
  if qBucket = "" ∧ cfgBucket = "" then
    HandlerResult.badRequest ("bucket parameter is missing")
  else
    let bucketName := if qBucket ≠ "" then qBucket else cfgBucket
    let pfxs :=
      if qPfxs ≠ "" then String.splitOn qPfxs commaSep
      else if qPfx ≠ "" then [qPfx]
      else if cfgPfxs ≠ "" then String.splitOn cfgPfxs commaSep
      else [("")]
    let sc := if qSc = "" ∧ cfgSc ≠ "" then cfgSc else qSc
    HandlerResult.serve bucketName pfxs sc

/-- A probe request end to end: the handler's input handling followed, only
in the serve case, by the collection pass (src/s3_exporter.go lines 216-228;
the registry and HTTP plumbing are transparent to which metrics exist). -/
def runProbe (qBucket qPfxs qPfx qSc cfgBucket cfgPfxs cfgSc : String)
    (svc : String → List ListResult) (dur : String → Int) :
    Except String CollectOutcome :=
  match probeHandler qBucket qPfxs qPfx qSc cfgBucket cfgPfxs cfgSc with
  | HandlerResult.badRequest msg => Except.error msg
  | HandlerResult.serve b pfxs sc => Except.ok (Exporter.collect ⟨b, pfxs, svc, sc⟩ dur)

/-- Whether an item passes the storage-class filter of the item loop
(src/s3_exporter.go lines 121-129): everything passes when no filter is
configured, otherwise only items whose class equals the filter. -/
def countedBy (sc : String) (i : S3Object) : Bool :=
  sc == "" || i.storageClass == some sc

/-- All items of a page sequence in fold order. -/
def joinContents (pages : List Page) : List S3Object :=
  (pages.map Page.contents).flatten

/-- The items of a page sequence that the storage-class filter lets through. -/
def countedItems (sc : String) (pages : List Page) : List S3Object :=
  (joinContents pages).filter (countedBy sc)

/-- The total number of common-prefix entries across a page sequence. -/
def tallySum (pages : List Page) : Nat :=
  (pages.map (fun p => p.commonPrefixes.length)).sum

/-- The metrics of the size/count/last-modified family (the ones the spec's
delimiter mode suppresses, §4.3). -/
def sizeCountFamily : MetricName → Bool
  | MetricName.lastModifiedObjectDate => true
  | MetricName.lastModifiedObjectSize => true
  | MetricName.objectTotal => true
  | MetricName.biggestSize => true
  | MetricName.sumSize => true
  | _ => false

/-- Modelled from the spec: the delimiter-mode output shape (§4.3), which is
absent from src/s3_exporter.go and evidenced by the `s3_common_prefixes`
test case in src/s3_exporter_test.go.  When a delimiter is supplied the
probe emits only the always-on listing-success and listing-duration metrics
plus the common-prefix count, all labeled by bucket, prefix and delimiter. -/
def delimiterModeSamples (bucket pfx delim : String) (agg : Aggregate) (dur : Int) :
    List Sample :=
  [ ⟨MetricName.listSuccess, 1, [bucket, pfx, delim]⟩,
    ⟨MetricName.listDuration, dur, [bucket, pfx, delim]⟩,
    ⟨MetricName.commonPrefixTotal, (agg.commonPrefixCount : Int), [bucket, pfx, delim]⟩ ]

/-- Auxiliary pure fold computing only the last-modified pair (timestamp and
size of the current holder), used to reason about the tracking invariant. -/
def lmFold (p : Int × Int) (i : S3Object) : Int × Int :=
  if p.1 < i.lastModified then (i.lastModified, i.size) else p

/-- Two item records that agree on everything except possibly the
storage-class field. -/
def sameExceptClass (a b : S3Object) : Prop :=
  a.key = b.key ∧ a.lastModified = b.lastModified ∧ a.size = b.size

/-- Modelled from the spec: one object-version record of the version-aware
lister (§3, §4.2), absent from src/: key, timestamp, size, optional storage
class and the is-latest-version flag. -/
structure ObjectVersion where
  key : String
  lastModified : Int
  size : Int
  storageClass : Option String
  isLatest : Bool
  deriving DecidableEq

/-- Modelled from the spec: a version-listing page (§4.2): the version
records, the two paired next-markers and the truncation flag. -/
structure VersionPage where
  versions : List ObjectVersion
  nextKeyMarker : Option String
  nextVersionIdMarker : Option String
  isTruncated : Bool
  deriving DecidableEq

/-- Modelled from the spec: the cursor pair a version-listing query carries
(§4.2: "continuation requires echoing back two paired cursor values"). -/
structure VersionQuery where
  keyMarker : Option String
  versionIdMarker : Option String
  deriving DecidableEq

/-- Modelled from the spec: a version record enters the aggregator as an
item; the is-latest flag is not consulted (§4.2: all versions count). -/
def versionItem (v : ObjectVersion) : S3Object :=
  ⟨v.key, v.lastModified, v.size, v.storageClass⟩

/-- Modelled from the spec: the version-aware pagination loop (§4.2): each
page's versions are folded like items, the loop continues exactly while the
truncation flag is set, and the next query echoes back the page's key marker
and version-id marker.  Returns the final aggregate and the queries issued,
in order; `none` when the model is out of its domain (response list
exhausted while truncated, or the nil-storage-class panic). -/
def listVersionsLoop (sc : String) (acc : Aggregate) (q : VersionQuery) :
    List VersionPage → Option (Aggregate × List VersionQuery)
  | [] => none
  | p :: rest =>
    match processItems sc acc (p.versions.map versionItem) with
    | none => none
    | some a =>
      if p.isTruncated then
        match listVersionsLoop sc a ⟨p.nextKeyMarker, p.nextVersionIdMarker⟩ rest with
        | none => none
        | some (agg, qs) => some (agg, q :: qs)
      else some (a, [q])

/-- The version pages a run consumes: every page up to and including the
first one whose truncation flag is clear. -/
def consumedVersionPages : List VersionPage → List VersionPage
  | [] => []
  | p :: rest => if p.isTruncated then p :: consumedVersionPages rest else [p]

/-- Two version records that agree on everything except possibly the
is-latest flag. -/
def verEqExceptLatest (v w : ObjectVersion) : Prop :=
  v.key = w.key ∧ v.lastModified = w.lastModified ∧ v.size = w.size ∧
    v.storageClass = w.storageClass

/-- Two version pages that agree on everything except possibly the is-latest
flags of their versions. -/
def vpageEqExceptLatest (p q : VersionPage) : Prop :=
  List.Forall₂ verEqExceptLatest p.versions q.versions ∧
    p.nextKeyMarker = q.nextKeyMarker ∧
    p.nextVersionIdMarker = q.nextVersionIdMarker ∧
    p.isTruncated = q.isTruncated

/-- A concrete item with no storage class, for witness instances. -/
def probeItemNoClass : S3Object := ⟨("k"), 5, 7, none⟩

/-- The same concrete item with a storage class, for witness instances. -/
def probeItemWithClass : S3Object := ⟨("k"), 5, 7, some ("X")⟩

/-- The four objects of the spec's multi-object scenario (§8), sizes
1234/2345/3456/4567 with increasing timestamps. -/
def scenarioItems : List S3Object :=
  [ ⟨("multiple0"), 1560459600000000000, 1234, none⟩,
    ⟨("multiple1"), 1563141600000000000, 2345, none⟩,
    ⟨("multiple2"), 1565910000000000000, 3456, none⟩,
    ⟨("multiple3"), 1568592000000000000, 4567, none⟩ ]

/-- A single final page holding the multi-object scenario. -/
def scenarioPage : Page := ⟨scenarioItems, [], none⟩

/-- The aggregate the multi-object scenario folds to. -/
def scenarioAgg : Aggregate :=
  ⟨4, 11602, 4567, 1568592000000000000, 4567, 0⟩

/-- A two-page response run whose only item is filtered out by any filter
other than its class, for witness instances. -/
def filteredRun : List ListResult :=
  [ ListResult.ok ⟨[probeItemWithClass], [], some ("t")⟩,
    ListResult.ok ⟨[], [], none⟩ ]

/-- The aggregate an unfiltered run over `filteredRun` produces. -/
def filteredRunAgg : Aggregate := ⟨1, 7, 7, 5, 7, 0⟩

/-- A single final page carrying three common prefixes and no items (the
spec's delimiter scenario, §8). -/
def delimRun : List ListResult :=
  [ ListResult.ok ⟨[], [("one"), ("two"), ("three")], none⟩ ]

/-- The aggregate the delimiter scenario folds to. -/
def delimAgg : Aggregate := ⟨0, 0, 0, goZeroTime, 0, 3⟩

/-- The spec's version-mode scenario (§8): two versions of one key, sizes
2345 (earlier, not latest) and 1234 (later, is-latest), on one final page. -/
def versionScenario : List VersionPage :=
  [ ⟨[ ⟨("key"), 1560459600000000000, 2345, none, false⟩,
       ⟨("key"), 1563141600000000000, 1234, none, true⟩ ], none, none, false⟩ ]

/-- The aggregate the version-mode scenario folds to. -/
def versionAgg : Aggregate := ⟨2, 3579, 2345, 1563141600000000000, 1234, 0⟩

/-- A client whose listing succeeds for the prefix a and errors for every
other prefix, for witness instances. -/
def svcErrAfterA : String → List ListResult := fun p =>
  if p = ("a") then [ListResult.ok ⟨[probeItemWithClass], [], none⟩] else [ListResult.err]

/-- What one pass of the item-count body does, field by field. -/
theorem countItem_eq (acc : Aggregate) (i : S3Object) :
    countItem acc i =
      { numberOfObjects := acc.numberOfObjects + 1
        totalSize := acc.totalSize + i.size
        biggestObjectSize :=
          if acc.biggestObjectSize < i.size then i.size else acc.biggestObjectSize
        lastModified :=
          if acc.lastModified < i.lastModified then i.lastModified else acc.lastModified
        lastObjectSize :=
          if acc.lastModified < i.lastModified then i.size else acc.lastObjectSize
        commonPrefixCount := acc.commonPrefixCount } := by
  unfold countItem
  by_cases h1 : acc.lastModified < i.lastModified <;>
    by_cases h2 : acc.biggestObjectSize < i.size <;>
      simp [h1, h2]

theorem countItems_nil (acc : Aggregate) : countItems acc [] = acc := rfl

theorem countItems_cons (acc : Aggregate) (i : S3Object) (l : List S3Object) :
    countItems acc (i :: l) = countItems (countItem acc i) l := rfl

theorem countItems_append (acc : Aggregate) (l1 l2 : List S3Object) :
    countItems acc (l1 ++ l2) = countItems (countItems acc l1) l2 := by
  simp [countItems]

theorem countItems_numberOfObjects : ∀ (l : List S3Object) (acc : Aggregate),
    (countItems acc l).numberOfObjects = acc.numberOfObjects + l.length
  | [], acc => by simp [countItems_nil]
  | i :: l, acc => by
    rw [countItems_cons, countItems_numberOfObjects l, countItem_eq]
    simp
    omega

theorem countItems_totalSize : ∀ (l : List S3Object) (acc : Aggregate),
    (countItems acc l).totalSize = acc.totalSize + (l.map S3Object.size).sum
  | [], acc => by simp [countItems_nil]
  | i :: l, acc => by
    rw [countItems_cons, countItems_totalSize l, countItem_eq]
    simp
    omega

theorem countItems_commonPrefixCount : ∀ (l : List S3Object) (acc : Aggregate),
    (countItems acc l).commonPrefixCount = acc.commonPrefixCount
  | [], acc => by simp [countItems_nil]
  | i :: l, acc => by
    rw [countItems_cons, countItems_commonPrefixCount l, countItem_eq]

theorem countItems_biggest_mono : ∀ (l : List S3Object) (acc : Aggregate),
    acc.biggestObjectSize ≤ (countItems acc l).biggestObjectSize
  | [], acc => le_refl _
  | i :: l, acc => by
    rw [countItems_cons]
    refine le_trans ?_ (countItems_biggest_mono l (countItem acc i))
    rw [countItem_eq]
    by_cases h : acc.biggestObjectSize < i.size <;> simp [h]
    exact le_of_lt h

theorem countItems_biggest_le : ∀ (l : List S3Object) (acc : Aggregate),
    ∀ x ∈ l, x.size ≤ (countItems acc l).biggestObjectSize
  | [], _ => by intro x hx; cases hx
  | i :: l, acc => by
    intro x hx
    rw [countItems_cons]
    rcases List.mem_cons.mp hx with rfl | hx
    · refine le_trans ?_ (countItems_biggest_mono l (countItem acc x))
      rw [countItem_eq]
      by_cases h : acc.biggestObjectSize < x.size <;> simp [h]
      exact le_of_not_lt h
    · exact countItems_biggest_le l (countItem acc i) x hx

theorem countItems_biggest_attained : ∀ (l : List S3Object) (acc : Aggregate),
    (countItems acc l).biggestObjectSize = acc.biggestObjectSize ∨
      ∃ x ∈ l, (countItems acc l).biggestObjectSize = x.size
  | [], acc => Or.inl rfl
  | i :: l, acc => by
    rw [countItems_cons]
    rcases countItems_biggest_attained l (countItem acc i) with h | ⟨x, hx, h⟩
    · have hb' : (countItem acc i).biggestObjectSize =
          if acc.biggestObjectSize < i.size then i.size else acc.biggestObjectSize := by
        rw [countItem_eq]
      by_cases hb : acc.biggestObjectSize < i.size
      · exact Or.inr ⟨i, List.mem_cons_self _ _, by rw [h, hb', if_pos hb]⟩
      · exact Or.inl (by rw [h, hb', if_neg hb])
    · exact Or.inr ⟨x, List.mem_cons_of_mem _ hx, h⟩

theorem countItems_lmPair : ∀ (l : List S3Object) (acc : Aggregate),
    ((countItems acc l).lastModified, (countItems acc l).lastObjectSize) =
      l.foldl lmFold (acc.lastModified, acc.lastObjectSize)
  | [], acc => by simp [countItems_nil]
  | i :: l, acc => by
    rw [countItems_cons, List.foldl_cons, countItems_lmPair l]
    congr 1
    rw [countItem_eq, lmFold]
    by_cases h : acc.lastModified < i.lastModified <;> simp [h]

theorem processItems_some_eq : ∀ (l : List S3Object) (sc : String) (acc agg : Aggregate),
    processItems sc acc l = some agg → agg = countItems acc (l.filter (countedBy sc))
  | [], sc, acc, agg => by
    intro h
    simp [processItems] at h
    simp [h, countItems_nil]
  | i :: l, sc, acc, agg => by
    intro h
    by_cases hsc : sc = ""
    · subst hsc
      have hp : processItem ("") acc i = some (countItem acc i) := by
        simp [processItem]
      rw [processItems, hp] at h
      have hc : countedBy ("") i = true := by simp [countedBy]
      rw [List.filter_cons, hc]
      simpa [countItems_cons] using processItems_some_eq l ("") (countItem acc i) agg h
    · cases hC : i.storageClass with
      | none =>
        have hp : processItem sc acc i = none := by
          simp [processItem, hsc, hC]
        rw [processItems, hp] at h
        cases h
      | some c =>
        by_cases hcs : c = sc
        · subst hcs
          have hp : processItem c acc i = some (countItem acc i) := by
            simp [processItem, hsc, hC]
          rw [processItems, hp] at h
          have hc : countedBy c i = true := by simp [countedBy, hC]
          rw [List.filter_cons, hc]
          simpa [countItems_cons] using processItems_some_eq l c (countItem acc i) agg h
        · have hp : processItem sc acc i = some acc := by
            simp [processItem, hsc, hC, hcs]
          rw [processItems, hp] at h
          have hc : countedBy sc i = false := by
            simp [countedBy, hC, hsc, hcs]
          rw [List.filter_cons, hc]
          simpa using processItems_some_eq l sc acc agg h

theorem processItems_no_filter : ∀ (l : List S3Object) (acc : Aggregate),
    processItems ("") acc l = some (countItems acc l)
  | [], acc => rfl
  | i :: l, acc => by
    have hp : processItem ("") acc i = some (countItem acc i) := by
      simp [processItem]
    rw [processItems, hp, countItems_cons]
    exact processItems_no_filter l (countItem acc i)

theorem processItems_isSome_iff : ∀ (l : List S3Object) (sc : String) (acc : Aggregate),
    sc ≠ "" →
    ((processItems sc acc l).isSome ↔ ∀ i ∈ l, i.storageClass.isSome)
  | [], sc, acc, _ => by simp [processItems]
  | i :: l, sc, acc, hsc => by
    cases hC : i.storageClass with
    | none =>
      have hp : processItem sc acc i = none := by
        simp [processItem, hsc, hC]
      rw [processItems, hp]
      simp [hC]
    | some c =>
      have key : ∀ acc2 : Aggregate, processItem sc acc i = some acc2 →
          ((processItems sc acc2 l).isSome ↔ ∀ x ∈ i :: l, x.storageClass.isSome) := by
        intro acc2 _
        rw [processItems_isSome_iff l sc acc2 hsc]
        constructor
        · intro hall x hx
          rcases List.mem_cons.mp hx with rfl | hx
          · simp [hC]
          · exact hall x hx
        · intro hall x hx
          exact hall x (List.mem_cons_of_mem _ hx)
      by_cases hcs : c = sc
      · subst hcs
        have hp : processItem c acc i = some (countItem acc i) := by
          simp [processItem, hsc, hC]
        rw [processItems, hp]
        exact key _ hp
      · have hp : processItem sc acc i = some acc := by
          simp [processItem, hsc, hC, hcs]
        rw [processItems, hp]
        exact key _ hp

theorem countItem_tally_comm (a : Aggregate) (p : Page) (i : S3Object) :
    countItem (tallyCommonPrefixes a p) i = tallyCommonPrefixes (countItem a i) p := by
  simp [tallyCommonPrefixes, countItem_eq]

theorem countItems_tally_comm (p : Page) : ∀ (l : List S3Object) (a : Aggregate),
    countItems (tallyCommonPrefixes a p) l = tallyCommonPrefixes (countItems a l) p
  | [], a => by simp [countItems_nil]
  | i :: l, a => by
    rw [countItems_cons, countItem_tally_comm, countItems_tally_comm p l (countItem a i),
      ← countItems_cons]

theorem foldPage_some_eq (sc : String) (acc a : Aggregate) (p : Page)
    (h : foldPage sc acc p = some a) :
    a = tallyCommonPrefixes (countItems acc (p.contents.filter (countedBy sc))) p := by
  unfold foldPage at h
  rcases Option.map_eq_some'.mp h with ⟨b, hb, hfb⟩
  rw [← hfb, processItems_some_eq p.contents sc acc b hb]

theorem foldPages_some_eq : ∀ (ps : List Page) (sc : String) (acc agg : Aggregate),
    foldPages sc acc ps = some agg →
    agg = { countItems acc (countedItems sc ps) with
            commonPrefixCount := acc.commonPrefixCount + tallySum ps }
  | [], sc, acc, agg => by
    intro h
    simp [foldPages] at h
    subst h
    have h1 : countedItems sc [] = [] := by simp [countedItems, joinContents]
    have h2 : tallySum [] = 0 := by simp [tallySum]
    rw [h1, h2, countItems_nil]
    ext <;> simp
  | p :: ps, sc, acc, agg => by
    intro h
    rw [foldPages] at h
    cases hf : foldPage sc acc p with
    | none => rw [hf] at h; cases h
    | some a =>
      rw [hf] at h
      have ha := foldPage_some_eq sc acc a p hf
      have hrec := foldPages_some_eq ps sc a agg h
      have hsplit : countedItems sc (p :: ps) =
          p.contents.filter (countedBy sc) ++ countedItems sc ps := by
        simp [countedItems, joinContents, List.filter_append]
      have htally : tallySum (p :: ps) = p.commonPrefixes.length + tallySum ps := by
        simp [tallySum]
      rw [hrec, ha, countItems_tally_comm, ← countItems_append, ← hsplit]
      ext <;>
        simp [tallyCommonPrefixes, countItems_commonPrefixCount, htally] <;>
          omega

theorem lmRun : ∀ (rest : List S3Object) (c : S3Object),
    ∃ j l1 l2, c :: rest = l1 ++ j :: l2 ∧
      (∀ x ∈ l1, x.lastModified < j.lastModified) ∧
      (∀ x ∈ l2, x.lastModified ≤ j.lastModified) ∧
      rest.foldl lmFold (c.lastModified, c.size) = (j.lastModified, j.size)
  | [], c =>
    ⟨c, [], [], by simp, by simp, by simp, by simp⟩
  | a :: t, c => by
    by_cases h : c.lastModified < a.lastModified
    · obtain ⟨j, l1, l2, hdec, h1, h2, hf⟩ := lmRun t a
      refine ⟨j, c :: l1, l2, by simpa using hdec, ?_, h2, ?_⟩
      · intro x hx
        rcases List.mem_cons.mp hx with rfl | hx
        · have haj : a.lastModified ≤ j.lastModified := by
            cases l1 with
            | nil =>
              simp at hdec
              rw [hdec.1]
            | cons b l1' =>
              simp at hdec
              exact le_of_lt (h1 a (by simp [hdec.1]))
          exact lt_of_lt_of_le h haj
        · exact h1 x hx
      · rw [List.foldl_cons]
        have : lmFold (c.lastModified, c.size) a = (a.lastModified, a.size) := by
          simp [lmFold, h]
        rw [this]
        exact hf
    · obtain ⟨j, l1, l2, hdec, h1, h2, hf⟩ := lmRun t c
      have hstep : lmFold (c.lastModified, c.size) a = (c.lastModified, c.size) := by
        simp [lmFold, h]
      cases l1 with
      | nil =>
        simp at hdec
        obtain ⟨hjc, hl2⟩ := hdec
        refine ⟨c, [], a :: t, by simp, by simp, ?_, ?_⟩
        · intro x hx
          rcases List.mem_cons.mp hx with rfl | hx
          · exact le_of_not_lt h
          · have := h2 x (by rw [← hl2]; exact hx)
            rw [hjc]
            exact this
        · rw [List.foldl_cons, hstep, hf, hjc]
      | cons b l1' =>
        simp at hdec
        obtain ⟨hcb, ht⟩ := hdec
        refine ⟨j, c :: a :: l1', l2, ?_, ?_, h2, ?_⟩
        · simp [ht]
        · intro x hx
          have hcj : c.lastModified < j.lastModified := by
            refine h1 c ?_
            rw [hcb]
            exact List.mem_cons_self _ _
          rcases List.mem_cons.mp hx with rfl | hx
          · exact hcj
          · rcases List.mem_cons.mp hx with rfl | hx
            · exact lt_of_le_of_lt (le_of_not_lt h) hcj
            · refine h1 x ?_
              exact List.mem_cons_of_mem _ hx
        · rw [List.foldl_cons, hstep]
          exact hf

theorem lmRunFrom (cs : List S3Object) (z s0 : Int) (hne : cs ≠ [])
    (hz : ∀ x ∈ cs, z < x.lastModified) :
    ∃ j l1 l2, cs = l1 ++ j :: l2 ∧
      (∀ x ∈ l1, x.lastModified < j.lastModified) ∧
      (∀ x ∈ l2, x.lastModified ≤ j.lastModified) ∧
      cs.foldl lmFold (z, s0) = (j.lastModified, j.size) := by
  cases cs with
  | nil => exact absurd rfl hne
  | cons c rest =>
    have hstep : lmFold (z, s0) c = (c.lastModified, c.size) := by
      simp [lmFold]
      intro hcon
      exact absurd (hz c (List.mem_cons_self _ _)) (not_lt_of_le hcon)
    rw [List.foldl_cons, hstep]
    exact lmRun rest c

theorem listLoop_calls_eq : ∀ (resps : List ListResult) (sc sc' : String)
    (acc acc' : Aggregate) (r r' : PrefixResult),
    listLoop sc acc resps = some r → listLoop sc' acc' resps = some r' →
    r.calls = r'.calls
  | [], _, _, _, _, _, _ => by
    intro h _
    cases h
  | ListResult.err :: rest, sc, sc', acc, acc', r, r' => by
    intro h h'
    rw [listLoop] at h h'
    cases h
    cases h'
    rfl
  | ListResult.ok p :: rest, sc, sc', acc, acc', r, r' => by
    intro h h'
    rw [listLoop] at h h'
    cases hf : foldPage sc acc p with
    | none => simp [hf] at h
    | some a =>
      simp only [hf] at h
      cases hf' : foldPage sc' acc' p with
      | none => simp [hf'] at h'
      | some a' =>
        simp only [hf'] at h'
        cases htok : p.nextContinuationToken with
        | none =>
          simp only [htok] at h h'
          cases h
          cases h'
          rfl
        | some t =>
          simp only [htok] at h h'
          cases hrec : listLoop sc a rest with
          | none => simp [hrec] at h
          | some rr =>
            simp only [hrec] at h
            cases hrec' : listLoop sc' a' rest with
            | none => simp [hrec'] at h'
            | some rr' =>
              simp only [hrec'] at h'
              have hcalls := listLoop_calls_eq rest sc sc' a a' rr rr' hrec hrec'
              cases rr <;> cases rr' <;> cases h <;> cases h' <;>
                simpa [PrefixResult.calls] using hcalls

theorem listLoop_ok_cpc : ∀ (resps : List ListResult) (sc : String)
    (acc agg : Aggregate) (n : Nat),
    listLoop sc acc resps = some (PrefixResult.ok agg n) →
    agg.commonPrefixCount = acc.commonPrefixCount + tallySum (consumedPages resps)
  | [], _, _, _, _ => by
    intro h
    cases h
  | ListResult.err :: rest, sc, acc, agg, n => by
    intro h
    rw [listLoop] at h
    simp at h
  | ListResult.ok p :: rest, sc, acc, agg, n => by
    intro h
    rw [listLoop] at h
    cases hf : foldPage sc acc p with
    | none => simp [hf] at h
    | some a =>
      simp only [hf] at h
      have hacpc : a.commonPrefixCount = acc.commonPrefixCount + p.commonPrefixes.length := by
        rw [foldPage_some_eq sc acc a p hf]
        simp [tallyCommonPrefixes, countItems_commonPrefixCount]
      cases htok : p.nextContinuationToken with
      | none =>
        simp only [htok] at h
        cases h
        rw [hacpc]
        simp [consumedPages, htok, tallySum]
      | some t =>
        simp only [htok] at h
        cases hrec : listLoop sc a rest with
        | none => simp [hrec] at h
        | some rr =>
          simp only [hrec] at h
          cases rr with
          | listError m => simp at h
          | ok agg2 m =>
            have hinj : agg2 = agg := by
              cases h
              rfl
            subst hinj
            have := listLoop_ok_cpc rest sc a agg2 m hrec
            rw [this, hacpc]
            have hcons : consumedPages (ListResult.ok p :: rest) = p :: consumedPages rest := by
              simp [consumedPages, htok]
            rw [hcons]
            simp [tallySum]
            omega

theorem sendSeq_family (sent : List Sample) (b pfx c : String) (agg : Aggregate)
    (dur : Int) :
    sendSeq sent (familyEmissions [b, pfx, c] agg dur) =
      (sent ++ familySamples [b, pfx, c] agg dur, true) := by
  simp [familyEmissions, familySamples, mustNewConstMetric, descVariableLabels, sendSeq]

theorem listSuccess_two_labels_panics (b pfx : String) :
    mustNewConstMetric MetricName.listSuccess 0 [b, pfx] = none := by
  simp [mustNewConstMetric, descVariableLabels]

theorem collectLoop_shift : ∀ (pfxs : List String) (bucket sc : String)
    (svc : String → List ListResult) (dur : String → Int) (sent : List Sample),
    collectLoop bucket sc svc dur sent pfxs =
      match collectLoop bucket sc svc dur [] pfxs with
      | CollectOutcome.completed l => CollectOutcome.completed (sent ++ l)
      | CollectOutcome.panicked l => CollectOutcome.panicked (sent ++ l)
  | [], bucket, sc, svc, dur, sent => by simp [collectLoop]
  | pfx :: rest, bucket, sc, svc, dur, sent => by
    cases hres : listLoop sc Aggregate.empty (svc pfx) with
    | none => simp [collectLoop, hres]
    | some r =>
      cases r with
      | listError n =>
        simp [collectLoop, hres, listSuccess_two_labels_panics, sendSeq]
      | ok agg n =>
        rw [collectLoop, collectLoop, hres]
        simp only
        rw [sendSeq_family, sendSeq_family]
        simp only
        rw [collectLoop_shift rest bucket sc svc dur
            (sent ++ familySamples [bucket, pfx, scLabel sc] agg (dur pfx)),
          collectLoop_shift rest bucket sc svc dur
            ([] ++ familySamples [bucket, pfx, scLabel sc] agg (dur pfx))]
        cases collectLoop bucket sc svc dur [] rest <;> simp

theorem countItem_congr (acc : Aggregate) {i i' : S3Object}
    (h : sameExceptClass i i') : countItem acc i = countItem acc i' := by
  rw [countItem_eq, countItem_eq, h.2.1, h.2.2]

theorem countItems_congr {l l' : List S3Object}
    (hrel : List.Forall₂ sameExceptClass l l') :
    ∀ acc : Aggregate, countItems acc l = countItems acc l' := by
  induction hrel with
  | nil => intro acc; rfl
  | cons h _ ih =>
    intro acc
    rw [countItems_cons, countItems_cons, countItem_congr acc h]
    exact ih _

/-- C1: over any sequence of listing pages folded by one probe, the final
`numberOfObjects` counts exactly the items the storage-class filter lets
through, `totalSize` is the sum of their sizes, and `biggestObjectSize` is
the maximum of their sizes (attained by one of them, and 0 when none were
counted).  The hypotheses say the fold ran without the nil-storage-class
panic and that the item sizes are non-negative, as S3 sizes are. -/
theorem C1_fold_counts (sc : String) (pages : List Page) (agg : Aggregate)
    (h : foldPages sc Aggregate.empty pages = some agg)
    (hsz : ∀ x ∈ countedItems sc pages, 0 ≤ x.size) :
    agg.numberOfObjects = (countedItems sc pages).length ∧
    agg.totalSize = ((countedItems sc pages).map S3Object.size).sum ∧
    (∀ x ∈ countedItems sc pages, x.size ≤ agg.biggestObjectSize) ∧
    (countedItems sc pages = [] → agg.biggestObjectSize = 0) ∧
    (countedItems sc pages ≠ [] →
      ∃ x ∈ countedItems sc pages, agg.biggestObjectSize = x.size) := by
  have heq := foldPages_some_eq pages sc Aggregate.empty agg h
  have hn : agg.numberOfObjects =
      (countItems Aggregate.empty (countedItems sc pages)).numberOfObjects := by
    rw [heq]
  have ht : agg.totalSize =
      (countItems Aggregate.empty (countedItems sc pages)).totalSize := by
    rw [heq]
  have hb : agg.biggestObjectSize =
      (countItems Aggregate.empty (countedItems sc pages)).biggestObjectSize := by
    rw [heq]
  refine ⟨?_, ?_, ?_, ?_, ?_⟩
  · rw [hn, countItems_numberOfObjects]
    simp [Aggregate.empty]
  · rw [ht, countItems_totalSize]
    simp [Aggregate.empty]
  · intro x hx
    rw [hb]
    exact countItems_biggest_le (countedItems sc pages) Aggregate.empty x hx
  · intro hnil
    rw [hb, hnil, countItems_nil]
    rfl
  · intro hne
    rw [hb]
    rcases countItems_biggest_attained (countedItems sc pages) Aggregate.empty with h0 | hex
    · rw [h0]
      cases hcs : countedItems sc pages with
      | nil => exact absurd hcs hne
      | cons c rest =>
        have hmem : c ∈ countedItems sc pages := by
          rw [hcs]
          exact List.mem_cons_self _ _
        have h1 : c.size ≤
            (countItems Aggregate.empty (countedItems sc pages)).biggestObjectSize :=
          countItems_biggest_le _ _ c hmem
        have h2 : 0 ≤ c.size := hsz c hmem
        have h3 : Aggregate.empty.biggestObjectSize = 0 := rfl
        rw [h0, h3] at h1
        refine ⟨c, List.mem_cons_self _ _, ?_⟩
        rw [h3]
        omega
    · exact hex

/-- C1 witness: the multi-object scenario (§8), four objects with sizes
1234, 2345, 3456, 4567. -/
theorem C1_fold_counts_witness :
    foldPages ("") Aggregate.empty [scenarioPage] = some scenarioAgg ∧
    (∀ x ∈ countedItems ("") [scenarioPage], 0 ≤ x.size) ∧
    (scenarioAgg.numberOfObjects = (countedItems ("") [scenarioPage]).length ∧
      scenarioAgg.totalSize = ((countedItems ("") [scenarioPage]).map S3Object.size).sum ∧
      (∀ x ∈ countedItems ("") [scenarioPage], x.size ≤ scenarioAgg.biggestObjectSize) ∧
      (countedItems ("") [scenarioPage] = [] → scenarioAgg.biggestObjectSize = 0) ∧
      (countedItems ("") [scenarioPage] ≠ [] →
        ∃ x ∈ countedItems ("") [scenarioPage], scenarioAgg.biggestObjectSize = x.size)) :=
  ⟨by decide, by decide,
    C1_fold_counts ("") [scenarioPage] scenarioAgg (by decide) (by decide)⟩

/-- C2: at every point of a probe's fold (that is, after any page sequence),
the last-modified pair tracks the single counted item whose timestamp is
maximal, where only a strictly later item replaces the current holder, so an
exact-timestamp tie keeps the earliest-seen item: the witness item `j`
decomposes the counted items so that everything before `j` is strictly
earlier and everything after is no later than `j`.  The timestamp hypothesis
says all counted items postdate the zero time, as real S3 timestamps do. -/
theorem C2_lastModified_invariant (sc : String) (pages : List Page) (agg : Aggregate)
    (h : foldPages sc Aggregate.empty pages = some agg)
    (hz : ∀ x ∈ countedItems sc pages, goZeroTime < x.lastModified) :
    (countedItems sc pages = [] →
      agg.lastModified = goZeroTime ∧ agg.lastObjectSize = 0) ∧
    (countedItems sc pages ≠ [] → ∃ j l1 l2,
      countedItems sc pages = l1 ++ j :: l2 ∧
      (∀ x ∈ l1, x.lastModified < j.lastModified) ∧
      (∀ x ∈ l2, x.lastModified ≤ j.lastModified) ∧
      agg.lastModified = j.lastModified ∧ agg.lastObjectSize = j.size) := by
  have heq := foldPages_some_eq pages sc Aggregate.empty agg h
  have hlm : agg.lastModified =
      (countItems Aggregate.empty (countedItems sc pages)).lastModified := by
    rw [heq]
  have hls : agg.lastObjectSize =
      (countItems Aggregate.empty (countedItems sc pages)).lastObjectSize := by
    rw [heq]
  have hpair := countItems_lmPair (countedItems sc pages) Aggregate.empty
  have hemp : (Aggregate.empty.lastModified, Aggregate.empty.lastObjectSize) =
      ((goZeroTime : Int), (0 : Int)) := rfl
  rw [hemp] at hpair
  constructor
  · intro hnil
    rw [hnil] at hlm hls
    rw [countItems_nil] at hlm hls
    exact ⟨hlm, hls⟩
  · intro hne
    obtain ⟨j, l1, l2, hdec, h1, h2, hf⟩ :=
      lmRunFrom (countedItems sc pages) goZeroTime 0 hne hz
    rw [hf] at hpair
    have hp1 : (countItems Aggregate.empty (countedItems sc pages)).lastModified =
        j.lastModified := congrArg Prod.fst hpair
    have hp2 : (countItems Aggregate.empty (countedItems sc pages)).lastObjectSize =
        j.size := congrArg Prod.snd hpair
    exact ⟨j, l1, l2, hdec, h1, h2, hlm.trans hp1, hls.trans hp2⟩

/-- C2 witness: the multi-object scenario; the latest item is the last one. -/
theorem C2_lastModified_invariant_witness :
    foldPages ("") Aggregate.empty [scenarioPage] = some scenarioAgg ∧
    (∀ x ∈ countedItems ("") [scenarioPage], goZeroTime < x.lastModified) ∧
    (countedItems ("") [scenarioPage] ≠ [] → ∃ j l1 l2,
      countedItems ("") [scenarioPage] = l1 ++ j :: l2 ∧
      (∀ x ∈ l1, x.lastModified < j.lastModified) ∧
      (∀ x ∈ l2, x.lastModified ≤ j.lastModified) ∧
      scenarioAgg.lastModified = j.lastModified ∧ scenarioAgg.lastObjectSize = j.size) :=
  ⟨by decide, by decide,
    (C2_lastModified_invariant ("") [scenarioPage] scenarioAgg (by decide) (by decide)).2⟩

/-- C3: an item whose storage class differs from a configured filter leaves
the whole accumulator unchanged, and pagination is not affected by
filtering: a filtered run issues exactly as many list calls (consumes
exactly as many pages, advancing the same continuation cursors) as the
unfiltered run over the same responses. -/
theorem C3_filter_excludes_but_cursor_advances :
    (∀ (sc : String) (acc : Aggregate) (item : S3Object) (c : String),
      sc ≠ "" → item.storageClass = some c → c ≠ sc →
      processItem sc acc item = some acc) ∧
    (∀ (resps : List ListResult) (sc : String) (acc acc' : Aggregate)
      (r r' : PrefixResult),
      listLoop sc acc resps = some r → listLoop ("") acc' resps = some r' →
      r.calls = r'.calls) := by
  constructor
  · intro sc acc item c hsc hC hcs
    simp [processItem, hsc, hC, hcs]
  · intro resps sc acc acc' r r' hrun hrun'
    exact listLoop_calls_eq resps sc ("") acc acc' r r' hrun hrun'

/-- C3 witness: a filter that excludes the only item keeps the accumulator
at its start value, and the filtered two-page run issues the same two list
calls as the unfiltered one. -/
theorem C3_filter_excludes_witness :
    processItem ("GLACIER") Aggregate.empty probeItemWithClass = some Aggregate.empty ∧
    listLoop ("GLACIER") Aggregate.empty filteredRun =
      some (PrefixResult.ok Aggregate.empty 2) ∧
    listLoop ("") Aggregate.empty filteredRun =
      some (PrefixResult.ok filteredRunAgg 2) ∧
    (PrefixResult.ok Aggregate.empty 2).calls = (PrefixResult.ok filteredRunAgg 2).calls :=
  ⟨C3_filter_excludes_but_cursor_advances.1 ("GLACIER") Aggregate.empty
      probeItemWithClass ("X") (by decide) (by decide) (by decide),
    by decide, by decide,
    C3_filter_excludes_but_cursor_advances.2 filteredRun ("GLACIER")
      Aggregate.empty Aggregate.empty _ _ (by decide) (by decide)⟩

/-- C7: folding a page with no items and no common prefixes is the identity
on every field of the accumulator, for every starting accumulator, and doing
it twice equals doing it once. -/
theorem C7_empty_page_identity (sc : String) (acc : Aggregate) (tok : Option String) :
    foldPage sc acc ⟨[], [], tok⟩ = some acc ∧
    (foldPage sc acc ⟨[], [], tok⟩).bind (fun a => foldPage sc a ⟨[], [], tok⟩) =
      foldPage sc acc ⟨[], [], tok⟩ := by
  have h : foldPage sc acc ⟨[], [], tok⟩ = some acc := rfl
  refine ⟨h, ?_⟩
  rw [h]
  exact h

/-- C9: with a storage-class filter configured the item loop dereferences
every item's storage-class pointer, so it is panic-free exactly when every
item carries a storage class; with no filter the field is never read: the
fold always succeeds and its result does not depend on the storage-class
fields at all. -/
theorem C9_storage_class_safety :
    (∀ (sc : String) (acc : Aggregate) (items : List S3Object), sc ≠ "" →
      ((processItems sc acc items).isSome ↔ ∀ i ∈ items, i.storageClass.isSome)) ∧
    (∀ (acc : Aggregate) (items items' : List S3Object),
      List.Forall₂ sameExceptClass items items' →
      processItems ("") acc items = processItems ("") acc items' ∧
      (processItems ("") acc items).isSome) := by
  constructor
  · intro sc acc items hsc
    exact processItems_isSome_iff items sc acc hsc
  · intro acc items items' hrel
    constructor
    · rw [processItems_no_filter, processItems_no_filter, countItems_congr hrel acc]
    · rw [processItems_no_filter]
      rfl

/-- C9 witness: a filtered fold over an item with no storage class panics,
while the unfiltered fold never reads the field. -/
theorem C9_storage_class_safety_witness :
    (processItems ("STANDARD") Aggregate.empty [probeItemNoClass]).isSome = false ∧
    processItems ("") Aggregate.empty [probeItemNoClass] =
      processItems ("") Aggregate.empty [probeItemWithClass] := by
  refine ⟨?_, ?_⟩
  · have hiff := C9_storage_class_safety.1 ("STANDARD") Aggregate.empty
      [probeItemNoClass] (by decide)
    by_contra hne
    have hs : (processItems ("STANDARD") Aggregate.empty [probeItemNoClass]).isSome = true := by
      revert hne
      cases (processItems ("STANDARD") Aggregate.empty [probeItemNoClass]).isSome <;> simp
    have := hiff.mp hs probeItemNoClass (by simp)
    simp [probeItemNoClass] at this
  · exact (C9_storage_class_safety.2 Aggregate.empty [probeItemNoClass]
      [probeItemWithClass]
      (List.Forall₂.cons (by simp [sameExceptClass, probeItemNoClass, probeItemWithClass])
        List.Forall₂.nil)).1

/-- C4 (code bug): the claim and the spec say a listing failure is reported
as listing-success=0 with every other family metric omitted.  In the source
the error path passes only the two label values bucket and prefix to the
three-label `s3_list_success` descriptor (src/s3_exporter.go lines 115-117
against lines 27-31), so `MustNewConstMetric` panics: on a probe whose
second page errors after a successful first page, nothing at all is emitted
— not even the success metric — regardless of what page 1 accumulated.  The
second conjunct shows the pagination itself stops at the failed call with
exactly two calls issued: the failing call is not retried. -/
theorem C4_error_emission_panics :
    Exporter.collect
        ⟨("b"), [("p")],
          fun _ => [ListResult.ok ⟨[probeItemWithClass], [], some ("t")⟩, ListResult.err],
          ("")⟩
        (fun _ => 0) = CollectOutcome.panicked [] ∧
    listLoop ("") Aggregate.empty
        [ListResult.ok ⟨[probeItemWithClass], [], some ("t")⟩, ListResult.err] =
      some (PrefixResult.listError 2) := by
  exact ⟨by decide, by decide⟩

/-- C8 counterexample: with a statically configured bucket, a probe whose
bucket parameter is empty (or missing) is not rejected — the handler falls
back to the configured bucket and proceeds. -/
theorem C8_static_bucket_counterexample :
    (probeHandler ("") ("") ("") ("") ("mybucket") ("") ("")).isBadRequest = false := by
  decide

/-- C8 (amended): a probe whose bucket parameter is missing or empty is
rejected with the client error before any aggregation provided no static
bucket is configured either; no listing call is made — the outcome is the
same error for every client and every duration. -/
theorem C8_missing_bucket_rejected (qPfxs qPfx qSc cfgPfxs cfgSc : String)
    (svc : String → List ListResult) (dur : String → Int) :
    runProbe ("") qPfxs qPfx qSc ("") cfgPfxs cfgSc svc dur =
      Except.error ("bucket parameter is missing") := by
  rfl

/-- C10 counterexample: when the first prefix's listing errors, Collect
does not return normally — the two-label listing-success emission panics —
so the claim's "makes Collect return immediately" fails as stated. -/
theorem C10_no_normal_return_counterexample :
    (collectLoop ("bkt") ("") svcErrAfterA (fun _ => 0) [] [("b"), ("a")]).isCompleted
      = false := by
  decide

/-- C10 (amended): within one probe over a prefix list, every prefix is
aggregated from a fresh zero accumulator — the samples emitted for the
prefixes processed before a failure are exactly the concatenation of what
each would emit in a standalone probe — and the first listing error aborts
Collect immediately (by the listing-success label panic rather than a
normal return), so no metrics of any kind are emitted for the erroring
prefix or for any remaining prefix. -/
theorem C10_fresh_accumulator_and_abort : ∀ (ps1 : List String)
    (bucket sc pfx : String) (svc : String → List ListResult) (dur : String → Int)
    (ps2 : List String),
    (∀ q ∈ ps1, ∃ agg n,
      listLoop sc Aggregate.empty (svc q) = some (PrefixResult.ok agg n)) →
    (∃ n, listLoop sc Aggregate.empty (svc pfx) = some (PrefixResult.listError n)) →
    ∃ sent,
      collectLoop bucket sc svc dur [] ps1 = CollectOutcome.completed sent ∧
      collectLoop bucket sc svc dur [] (ps1 ++ pfx :: ps2) =
        CollectOutcome.panicked sent ∧
      sent = (ps1.map (fun q => (collectLoop bucket sc svc dur [] [q]).sent)).flatten
  | [], bucket, sc, pfx, svc, dur, ps2 => by
    intro _ herr
    obtain ⟨n, herr⟩ := herr
    refine ⟨[], rfl, ?_, by simp⟩
    simp [collectLoop, herr, listSuccess_two_labels_panics, sendSeq]
  | q :: ps1, bucket, sc, pfx, svc, dur, ps2 => by
    intro hok herr
    obtain ⟨agg, n, hq⟩ := hok q (List.mem_cons_self _ _)
    obtain ⟨sent1, hc1, hp1, hs1⟩ :=
      C10_fresh_accumulator_and_abort ps1 bucket sc pfx svc dur ps2
        (fun x hx => hok x (List.mem_cons_of_mem _ hx)) herr
    have hsolo : collectLoop bucket sc svc dur [] [q] =
        CollectOutcome.completed (familySamples [bucket, q, scLabel sc] agg (dur q)) := by
      rw [collectLoop, hq]
      simp only
      rw [sendSeq_family]
      simp only [List.nil_append]
      rfl
    refine ⟨familySamples [bucket, q, scLabel sc] agg (dur q) ++ sent1, ?_, ?_, ?_⟩
    · rw [collectLoop, hq]
      simp only
      rw [sendSeq_family]
      simp only [List.nil_append]
      rw [collectLoop_shift ps1 bucket sc svc dur
          (familySamples [bucket, q, scLabel sc] agg (dur q)), hc1]
    · rw [List.cons_append, collectLoop, hq]
      simp only
      rw [sendSeq_family]
      simp only [List.nil_append]
      rw [collectLoop_shift (ps1 ++ pfx :: ps2) bucket sc svc dur
          (familySamples [bucket, q, scLabel sc] agg (dur q)), hp1]
    · rw [List.map_cons, List.flatten_cons, ← hs1, hsolo]
      rfl

/-- C10 witness: prefix a succeeds, prefix b errors, prefix c is never
reached. -/
theorem C10_fresh_accumulator_witness :
    (∀ q ∈ [("a")], ∃ agg n,
      listLoop ("") Aggregate.empty (svcErrAfterA q) = some (PrefixResult.ok agg n)) ∧
    (∃ n, listLoop ("") Aggregate.empty (svcErrAfterA ("b")) =
      some (PrefixResult.listError n)) ∧
    (∃ sent,
      collectLoop ("bkt") ("") svcErrAfterA (fun _ => 0) [] [("a")] =
        CollectOutcome.completed sent ∧
      collectLoop ("bkt") ("") svcErrAfterA (fun _ => 0) []
          ([("a")] ++ ("b") :: [("c")]) = CollectOutcome.panicked sent ∧
      sent = ([("a")].map
        (fun q => (collectLoop ("bkt") ("") svcErrAfterA (fun _ => 0) [] [q]).sent)).flatten) := by
  have h1 : ∀ q ∈ [("a")], ∃ agg n,
      listLoop ("") Aggregate.empty (svcErrAfterA q) = some (PrefixResult.ok agg n) := by
    intro q hq
    have hqa : q = ("a") := by simpa using hq
    subst hqa
    exact ⟨filteredRunAgg, 1, by decide⟩
  have h2 : ∃ n, listLoop ("") Aggregate.empty (svcErrAfterA ("b")) =
      some (PrefixResult.listError n) := ⟨1, by decide⟩
  exact ⟨h1, h2,
    C10_fresh_accumulator_and_abort [("a")] ("bkt") ("") ("b") svcErrAfterA
      (fun _ => 0) [("c")] h1 h2⟩

/-- C5: for a probe with a non-empty delimiter, the output is exactly the
always-on listing-success and listing-duration metrics plus the
common-prefix count metric, all labeled (bucket, prefix, delimiter); the
count's value is the running sum of the page common-prefix counts over the
consumed pages, none of the size/count family metrics appear, and the value
is unaffected by the storage-class filter (any two runs over the same
responses agree on it). -/
theorem C5_delimiter_mode (bucket pfx delim sc : String) (resps : List ListResult)
    (agg : Aggregate) (n : Nat) (dur : Int)
    (hd : delim ≠ "")
    (h : listLoop sc Aggregate.empty resps = some (PrefixResult.ok agg n)) :
    (delimiterModeSamples bucket pfx delim agg dur).map Sample.name =
      [MetricName.listSuccess, MetricName.listDuration, MetricName.commonPrefixTotal] ∧
    (⟨MetricName.commonPrefixTotal, (tallySum (consumedPages resps) : Int),
        [bucket, pfx, delim]⟩ : Sample) ∈ delimiterModeSamples bucket pfx delim agg dur ∧
    (∀ s ∈ delimiterModeSamples bucket pfx delim agg dur,
      sizeCountFamily s.name = false) ∧
    (∀ (sc' : String) (agg' : Aggregate) (n' : Nat),
      listLoop sc' Aggregate.empty resps = some (PrefixResult.ok agg' n') →
      agg'.commonPrefixCount = agg.commonPrefixCount) := by
  have hzero : Aggregate.empty.commonPrefixCount = 0 := rfl
  have hcpc := listLoop_ok_cpc resps sc Aggregate.empty agg n h
  rw [hzero] at hcpc
  have hval : agg.commonPrefixCount = tallySum (consumedPages resps) := by omega
  refine ⟨by simp [delimiterModeSamples], ?_, ?_, ?_⟩
  · rw [← hval]
    simp [delimiterModeSamples]
  · intro s hs
    simp [delimiterModeSamples] at hs
    rcases hs with rfl | rfl | rfl <;> rfl
  · intro sc' agg' n' h'
    have hcpc' := listLoop_ok_cpc resps sc' Aggregate.empty agg' n' h'
    rw [hzero] at hcpc'
    omega

/-- C5 witness: the delimiter scenario (§8) — a single page with three
common prefixes and no items. -/
theorem C5_delimiter_mode_witness :
    (("/") : String) ≠ ("") ∧
    listLoop ("") Aggregate.empty delimRun = some (PrefixResult.ok delimAgg 1) ∧
    ((delimiterModeSamples ("bkt") ("mock") ("/") delimAgg 0).map Sample.name =
      [MetricName.listSuccess, MetricName.listDuration, MetricName.commonPrefixTotal] ∧
    (⟨MetricName.commonPrefixTotal, (tallySum (consumedPages delimRun) : Int),
        [("bkt"), ("mock"), ("/")]⟩ : Sample) ∈
      delimiterModeSamples ("bkt") ("mock") ("/") delimAgg 0 ∧
    (∀ s ∈ delimiterModeSamples ("bkt") ("mock") ("/") delimAgg 0,
      sizeCountFamily s.name = false) ∧
    (∀ (sc' : String) (agg' : Aggregate) (n' : Nat),
      listLoop sc' Aggregate.empty delimRun = some (PrefixResult.ok agg' n') →
      agg'.commonPrefixCount = delimAgg.commonPrefixCount)) :=
  ⟨by decide, by decide,
    C5_delimiter_mode ("bkt") ("mock") ("/") ("") delimRun delimAgg 1 0
      (by decide) (by decide)⟩

theorem verItems_congr {vs ws : List ObjectVersion}
    (h : List.Forall₂ verEqExceptLatest vs ws) :
    vs.map versionItem = ws.map versionItem := by
  induction h with
  | nil => rfl
  | cons hv _ ih =>
    simp only [List.map_cons, ih]
    congr 1
    obtain ⟨h1, h2, h3, h4⟩ := hv
    simp [versionItem, h1, h2, h3, h4]

theorem listVersionsLoop_congr : ∀ {pages pages' : List VersionPage},
    List.Forall₂ vpageEqExceptLatest pages pages' →
    ∀ (sc : String) (acc : Aggregate) (q : VersionQuery),
    listVersionsLoop sc acc q pages = listVersionsLoop sc acc q pages' := by
  intro pages pages' hrel
  induction hrel with
  | nil => intro sc acc q; rfl
  | cons hp hrest ih =>
    intro sc acc q
    obtain ⟨hv, hkm, hvm, htr⟩ := hp
    rw [listVersionsLoop, listVersionsLoop, verItems_congr hv]
    cases processItems sc acc (_ : List S3Object) with
    | none => rfl
    | some a =>
      simp only
      rw [htr, hkm, hvm]
      cases (_ : VersionPage).isTruncated
      · rfl
      · rw [ih]

theorem listVersionsLoop_spec : ∀ (pages : List VersionPage) (sc : String)
    (acc : Aggregate) (q : VersionQuery) (agg : Aggregate) (qs : List VersionQuery),
    listVersionsLoop sc acc q pages = some (agg, qs) →
    agg = countItems acc
        ((((consumedVersionPages pages).map VersionPage.versions).flatten.map
          versionItem).filter (countedBy sc)) ∧
      qs.head? = some q ∧
      qs.length = (consumedVersionPages pages).length ∧
      List.Forall₂ (fun (qq : VersionQuery) (pp : VersionPage) =>
          qq.keyMarker = pp.nextKeyMarker ∧ qq.versionIdMarker = pp.nextVersionIdMarker)
        (qs.drop 1) (consumedVersionPages pages).dropLast
  | [], _, _, _, _, _ => by
    intro h
    cases h
  | p :: rest, sc, acc, q, agg, qs => by
    intro h
    rw [listVersionsLoop] at h
    cases hpi : processItems sc acc (p.versions.map versionItem) with
    | none => simp [hpi] at h
    | some a =>
      simp only [hpi] at h
      have ha := processItems_some_eq (p.versions.map versionItem) sc acc a hpi
      cases htr : p.isTruncated with
      | false =>
        simp only [htr] at h
        rw [if_neg (by simp)] at h
        cases h
        have hcons : consumedVersionPages (p :: rest) = [p] := by
          simp [consumedVersionPages, htr]
        rw [hcons]
        refine ⟨?_, rfl, rfl, ?_⟩
        · simpa using ha
        · simp
      | true =>
        simp only [htr] at h
        rw [if_pos trivial] at h
        cases hrec : listVersionsLoop sc a ⟨p.nextKeyMarker, p.nextVersionIdMarker⟩ rest with
        | none => simp [hrec] at h
        | some pr =>
          obtain ⟨agg2, qs2⟩ := pr
          simp only [hrec] at h
          cases h
          obtain ⟨hagg, hhead, hlen, hpairs⟩ :=
            listVersionsLoop_spec rest sc a ⟨p.nextKeyMarker, p.nextVersionIdMarker⟩
              _ _ hrec
          have hcons : consumedVersionPages (p :: rest) = p :: consumedVersionPages rest := by
            simp [consumedVersionPages, htr]
          refine ⟨?_, rfl, ?_, ?_⟩
          · rw [hagg, ha, ← countItems_append, hcons]
            congr 1
            simp [List.filter_append]
          · rw [hcons]
            simp [hlen]
          · rw [hcons]
            cases hcr : consumedVersionPages rest with
            | nil =>
              rw [hcr] at hlen
              cases qs2 with
              | nil => cases hhead
              | cons q2 t2 => simp at hlen
            | cons cp ct =>
              rw [List.dropLast_cons₂]
              cases qs2 with
              | nil => cases hhead
              | cons q2 t2 =>
                have hq2 : q2 = ⟨p.nextKeyMarker, p.nextVersionIdMarker⟩ := by
                  simpa using hhead
                subst hq2
                refine List.Forall₂.cons ⟨rfl, rfl⟩ ?_
                simpa [hcr] using hpairs

/-- C6: in version mode every historical version of every key enters the
aggregate — the object count is the number of version records over the
consumed pages and the total size sums all their sizes, independent of the
is-latest flags (any flag assignment yields the same run) — and the
continuation is driven by the paired cursors: the first query carries no
markers and each later query echoes back the previous page's key marker and
version-id marker, one query per consumed page. -/
theorem C6_version_mode (pages : List VersionPage) (agg : Aggregate)
    (qs : List VersionQuery)
    (h : listVersionsLoop ("") Aggregate.empty ⟨none, none⟩ pages = some (agg, qs)) :
    agg.numberOfObjects =
      (((consumedVersionPages pages).map VersionPage.versions).flatten).length ∧
    agg.totalSize =
      ((((consumedVersionPages pages).map VersionPage.versions).flatten).map
        (fun v => v.size)).sum ∧
    (∀ pages', List.Forall₂ vpageEqExceptLatest pages pages' →
      listVersionsLoop ("") Aggregate.empty ⟨none, none⟩ pages' = some (agg, qs)) ∧
    qs.head? = some ⟨none, none⟩ ∧
    qs.length = (consumedVersionPages pages).length ∧
    List.Forall₂ (fun (qq : VersionQuery) (pp : VersionPage) =>
        qq.keyMarker = pp.nextKeyMarker ∧ qq.versionIdMarker = pp.nextVersionIdMarker)
      (qs.drop 1) (consumedVersionPages pages).dropLast := by
  obtain ⟨hagg, hhead, hlen, hpairs⟩ :=
    listVersionsLoop_spec pages ("") Aggregate.empty ⟨none, none⟩ agg qs h
  have hfilter :
      ((((consumedVersionPages pages).map VersionPage.versions).flatten.map
        versionItem).filter (countedBy (""))) =
      (((consumedVersionPages pages).map VersionPage.versions).flatten.map
        versionItem) := by
    apply List.filter_eq_self.mpr
    intro x _
    simp [countedBy]
  rw [hfilter] at hagg
  refine ⟨?_, ?_, ?_, hhead, hlen, hpairs⟩
  · rw [hagg, countItems_numberOfObjects]
    have hz : Aggregate.empty.numberOfObjects = 0 := rfl
    rw [hz, List.length_map]
    omega
  · rw [hagg, countItems_totalSize]
    have hz : Aggregate.empty.totalSize = 0 := rfl
    have hmap : S3Object.size ∘ versionItem = fun v : ObjectVersion => v.size := rfl
    rw [hz, List.map_map, hmap]
    omega
  · intro pages' hrel
    rw [← listVersionsLoop_congr hrel ("") Aggregate.empty ⟨none, none⟩]
    exact h

/-- C6 witness: the version scenario (§8) — two versions of one key, sizes
2345 (earlier) and 1234 (later, is-latest): both count, total 3579. -/
theorem C6_version_mode_witness :
    listVersionsLoop ("") Aggregate.empty ⟨none, none⟩ versionScenario =
      some (versionAgg, [⟨none, none⟩]) ∧
    versionAgg.numberOfObjects =
      (((consumedVersionPages versionScenario).map VersionPage.versions).flatten).length ∧
    versionAgg.totalSize =
      ((((consumedVersionPages versionScenario).map VersionPage.versions).flatten).map
        (fun v => v.size)).sum :=
  ⟨by decide,
    (C6_version_mode versionScenario versionAgg [⟨none, none⟩] (by decide)).1,
    (C6_version_mode versionScenario versionAgg [⟨none, none⟩] (by decide)).2.1⟩

end S3E
